import Mathlib

/-!
A shallow embedding of the `onix` command-line client (`src/main.rs`).

The client talks to a remote project/todo service over HTTP+JSON.  We model
the environment as a `World`: a function from HTTP requests to optional
responses (`none` = transport error, mirroring `reqwest` errors) together
with the JSON decoders for the three read shapes (the JSON codec library is
an external collaborator; its behaviour is a parameter of the model).

Every client operation is translated from the Rust source into a function
`World → ... → OpResult α`, where `OpResult α` carries the sequence of HTTP
requests actually issued (one entry per `reqwest` call, in order) together
with the `Option` result the Rust function returns.  The `?` operator of the
source corresponds to the early-`none` branches of the matches below.

The dispatcher arms of `main` are modelled as functions producing a
`RunResult`: the bytes written to stdout and whether the process exits
successfully (`false` = the `unwrap`/`panic!` path, which prints nothing
because printing happens only after a successful unwrap in the source).
-/

namespace Onix

/-- JSON values, used for request bodies built with the `json!` macro. -/
inductive Json where
  | null : Json
  | bool : Bool → Json
  | str : String → Json
  | arr : List Json → Json
  | obj : List (String × Json) → Json

/-- HTTP methods used by the client. -/
inductive Method where
  | get | post | patch | delete
deriving DecidableEq

/-- An HTTP request: method, full URL, and optional JSON body. -/
structure Request where
  method : Method
  url : String
  body : Option Json

/-- An HTTP response as seen by the client: status code and body text. -/
structure Response where
  status : Nat
  body : String

/-- `struct Id` from the source. -/
structure Id where
  id : String
deriving DecidableEq

/-- `struct Project` from the source: scalar fields plus an optional list of
list ids (serde field names `createdAt`/`updatedAt` on the wire). -/
structure Project where
  id : String
  name : String
  color : String
  created_at : String
  updated_at : String
  lists : Option (List Id)
deriving DecidableEq

/-- `struct ListItem` from the source. -/
structure ListItem where
  id : String
  name : String
  done : Bool
  list_id : String
deriving DecidableEq

/-- `struct List` from the source (renamed: `List` is taken in Lean). -/
structure ProjectList where
  id : String
  name : String
  project_id : String
  items : List ListItem
deriving DecidableEq

/-- `struct FullProject` from the source: as `Project` but `lists` holds the
fetched lists and is required. -/
structure FullProject where
  id : String
  name : String
  color : String
  created_at : String
  updated_at : String
  lists : List ProjectList
deriving DecidableEq

/-- The environment: the remote service (plus transport) and the JSON
decoders supplied by the codec library.  `http r = none` models a transport
error; a returned `Response` carries whatever status the server chose. -/
structure World where
  http : Request → Option Response
  decodeProjects : String → Option (List Project)
  decodeProject : String → Option Project
  decodeList : String → Option ProjectList

/-- Result of running a client operation: the HTTP requests issued, in
order, and the value the Rust function returns. -/
structure OpResult (α : Type) where
  trace : List Request
  result : Option α

/-- The hard-coded base URL of the service. -/
def baseUrl : String := "http://localhost:3000"

/-- `StatusCode::is_success` of reqwest: 2xx. -/
def isSuccess (status : Nat) : Bool := 200 ≤ status && status < 300

/-- `get_all_projects`: GET `/api/project/all`, decode a `Vec<Project>`.
Note the source never inspects the status: `reqwest::get(..).ok()?` only
fails on transport errors, and `.json()` decodes the body regardless of the
status code. -/
def get_all_projects (w : World) : OpResult (List Project) :=
  let req : Request := ⟨Method.get, baseUrl ++ "/api/project/all", none⟩
  match w.http req with
  | none => ⟨[req], none⟩
  | some resp => ⟨[req], w.decodeProjects resp.body⟩

/-- `get_project`: GET `/api/project?id=<id>` (id interpolated raw), decode
a `Project`.  Status is not inspected, as in the source. -/
def get_project (w : World) (id : String) : OpResult Project :=
  let req : Request := ⟨Method.get, baseUrl ++ "/api/project?id=" ++ id, none⟩
  match w.http req with
  | none => ⟨[req], none⟩
  | some resp => ⟨[req], w.decodeProject resp.body⟩

/-- `get_project_list`: GET `/api/project/list?id=<listId>`, decode a
`List`.  Status is not inspected, as in the source. -/
def get_project_list (w : World) (listId : String) : OpResult ProjectList :=
  let req : Request := ⟨Method.get, baseUrl ++ "/api/project/list?id=" ++ listId, none⟩
  match w.http req with
  | none => ⟨[req], none⟩
  | some resp => ⟨[req], w.decodeList resp.body⟩

/-- The `for` loop of `get_full_project`: fetch each referenced list in
input order, pushing results; the `?` inside the loop aborts the whole
operation at the first failed fetch (no later requests are issued). -/
def fetchLists (w : World) : List Id → OpResult (List ProjectList)
  | [] => ⟨[], some []⟩
  | i :: rest =>
    match get_project_list w i.id with
    | ⟨t, none⟩ => ⟨t, none⟩
    | ⟨t, some l⟩ =>
      match fetchLists w rest with
      | ⟨t2, none⟩ => ⟨t ++ t2, none⟩
      | ⟨t2, some ls⟩ => ⟨t ++ t2, some (l :: ls)⟩

/-- `get_full_project`: fetch the project (`?`), require its `lists` field
(`as_ref()?`), fetch each list in order, then assemble the `FullProject`
copying the scalar fields. -/
def get_full_project (w : World) (projectId : String) : OpResult FullProject :=
  match get_project w projectId with
  | ⟨t, none⟩ => ⟨t, none⟩
  | ⟨t, some project⟩ =>
    match project.lists with
    | none => ⟨t, none⟩
    | some ids =>
      match fetchLists w ids with
      | ⟨t2, none⟩ => ⟨t ++ t2, none⟩
      | ⟨t2, some lists⟩ =>
        ⟨t ++ t2,
         some ⟨project.id, project.name, project.color, project.created_at,
               project.updated_at, lists⟩⟩

/-- `update_item`: PATCH `/api/project/list/item` with the `json!` body
built in the source; returns `is_success` of the status, `false` on a
transport error. -/
def update_item (w : World) (itemId : String) (done : Bool) : OpResult Bool :=
  let value : Json :=
    Json.obj [("id", Json.str itemId),
              ("data", Json.obj [("done", Json.bool done)])]
  let req : Request := ⟨Method.patch, baseUrl ++ "/api/project/list/item", some value⟩
  match w.http req with
  | none => ⟨[req], some false⟩
  | some resp => ⟨[req], some (isSuccess resp.status)⟩

/-- `new_list`: POST `/api/project/list`; on 2xx return the raw response
body text, otherwise `None`.  (The source unwraps `res.text()`; reading the
body of a received response is modelled as always available.) -/
def new_list (w : World) (projectId name : String) : OpResult String :=
  let data : Json :=
    Json.obj [("name", Json.str name), ("projectId", Json.str projectId)]
  let req : Request := ⟨Method.post, baseUrl ++ "/api/project/list", some data⟩
  match w.http req with
  | none => ⟨[req], none⟩
  | some resp => ⟨[req], if isSuccess resp.status then some resp.body else none⟩

/-- `new_list_item`: POST `/api/project/list/item`; same semantics as
`new_list`. -/
def new_list_item (w : World) (listId name : String) : OpResult String :=
  let data : Json :=
    Json.obj [("name", Json.str name), ("listId", Json.str listId)]
  let req : Request := ⟨Method.post, baseUrl ++ "/api/project/list/item", some data⟩
  match w.http req with
  | none => ⟨[req], none⟩
  | some resp => ⟨[req], if isSuccess resp.status then some resp.body else none⟩

/-- `delete_list`: DELETE `/api/project/list?id=<listId>`; `is_success` of
the status, `false` on transport error. -/
def delete_list (w : World) (listId : String) : OpResult Bool :=
  let req : Request := ⟨Method.delete, baseUrl ++ "/api/project/list?id=" ++ listId, none⟩
  match w.http req with
  | none => ⟨[req], some false⟩
  | some resp => ⟨[req], some (isSuccess resp.status)⟩

/-- `delete_list_item`: DELETE `/api/project/list/item?id=<itemId>`. -/
def delete_list_item (w : World) (itemId : String) : OpResult Bool :=
  let req : Request := ⟨Method.delete, baseUrl ++ "/api/project/list/item?id=" ++ itemId, none⟩
  match w.http req with
  | none => ⟨[req], some false⟩
  | some resp => ⟨[req], some (isSuccess resp.status)⟩

/-! ### Serialization

`serde_json::to_string_pretty` on the derived `Serialize` impls.  The
pretty formatter indents by two spaces, puts each array element / object
field on its own line, separates a key from its value by a colon and a
space, and renders `Option::None` as `null` (the `lists` field of `Project`
has no skip attribute, so an absent value is still emitted).  For the model
types (strings, booleans, vectors, options) serialization cannot fail, so
the serializers below are total functions; the `unwrap` in `main` is the
identity on their output. -/

/-- One lowercase hex digit, as `serde_json` emits for control characters. -/
def hexDigit (n : Nat) : Char :=
  if n < 10 then Char.ofNat (48 + n) else Char.ofNat (87 + n)

/-- JSON string escaping as performed by `serde_json`. -/
def escapeChar (c : Char) : String :=
  if c = '"' then "\\\""
  else if c = '\\' then "\\\\"
  else if c.toNat = 8 then "\\b"
  else if c.toNat = 12 then "\\f"
  else if c = '\n' then "\\n"
  else if c.toNat = 13 then "\\r"
  else if c = '\t' then "\\t"
  else if c.toNat < 32 then
    "\\u00" ++ String.mk [hexDigit (c.toNat / 16), hexDigit (c.toNat % 16)]
  else String.singleton c

/-- Escape a whole string for inclusion in JSON output. -/
def escapeStr (s : String) : String := String.join (s.data.map escapeChar)

/-- A JSON string literal: quotes around the escaped contents. -/
def renderStr (s : String) : String := "\"" ++ escapeStr s ++ "\""

/-- Indentation: two spaces per nesting level (`PrettyFormatter` default). -/
def pad (n : Nat) : String := String.mk (List.replicate (2 * n) ' ')

/-- Render a non-empty run of array elements, one per line at level
`ind + 1`, separated by commas. -/
def renderItems (ind : Nat) (render : Nat → α → String) (x : α) :
    List α → String
  | [] => pad (ind + 1) ++ render (ind + 1) x
  | y :: ys => pad (ind + 1) ++ render (ind + 1) x ++ ",\n" ++ renderItems ind render y ys

/-- Render a JSON array whose opening bracket sits at level `ind`; an empty
vector renders as a bare bracket pair on one line. -/
def renderArr (ind : Nat) (render : Nat → α → String) : List α → String
  | [] => "[]"
  | x :: xs => "[\n" ++ renderItems ind render x xs ++ "\n" ++ pad ind ++ "]"

/-- Serialization of `Id`: a one-field object. -/
def renderIdObj (ind : Nat) (i : Id) : String :=
  "\x7b\n" ++ pad (ind + 1) ++ "\"id\": " ++ renderStr i.id ++ "\n" ++ pad ind ++ "\x7d"

/-- Serialization of `ListItem`: fields in declaration order, `done` as a
JSON boolean, `list_id` renamed to `listId`. -/
def renderListItemObj (ind : Nat) (it : ListItem) : String :=
  "\x7b\n"
    ++ pad (ind + 1) ++ "\"id\": " ++ renderStr it.id ++ ",\n"
    ++ pad (ind + 1) ++ "\"name\": " ++ renderStr it.name ++ ",\n"
    ++ pad (ind + 1) ++ "\"done\": " ++ (if it.done then "true" else "false") ++ ",\n"
    ++ pad (ind + 1) ++ "\"listId\": " ++ renderStr it.list_id ++ "\n"
    ++ pad ind ++ "\x7d"

/-- Serialization of `List` (model type `ProjectList`): `project_id` renamed
to `projectId`, `items` as a nested array. -/
def renderProjectListObj (ind : Nat) (l : ProjectList) : String :=
  "\x7b\n"
    ++ pad (ind + 1) ++ "\"id\": " ++ renderStr l.id ++ ",\n"
    ++ pad (ind + 1) ++ "\"name\": " ++ renderStr l.name ++ ",\n"
    ++ pad (ind + 1) ++ "\"projectId\": " ++ renderStr l.project_id ++ ",\n"
    ++ pad (ind + 1) ++ "\"items\": " ++ renderArr (ind + 1) renderListItemObj l.items ++ "\n"
    ++ pad ind ++ "\x7d"

/-- Serialization of `Project`: scalar fields then `lists`, which is `null`
when the optional field is absent. -/
def renderProjectObj (ind : Nat) (p : Project) : String :=
  "\x7b\n"
    ++ pad (ind + 1) ++ "\"id\": " ++ renderStr p.id ++ ",\n"
    ++ pad (ind + 1) ++ "\"name\": " ++ renderStr p.name ++ ",\n"
    ++ pad (ind + 1) ++ "\"color\": " ++ renderStr p.color ++ ",\n"
    ++ pad (ind + 1) ++ "\"createdAt\": " ++ renderStr p.created_at ++ ",\n"
    ++ pad (ind + 1) ++ "\"updatedAt\": " ++ renderStr p.updated_at ++ ",\n"
    ++ pad (ind + 1) ++ "\"lists\": "
    ++ (match p.lists with
        | none => "null"
        | some ids => renderArr (ind + 1) renderIdObj ids) ++ "\n"
    ++ pad ind ++ "\x7d"

/-- Serialization of `FullProject`: scalar fields then the array of lists. -/
def renderFullProjectObj (ind : Nat) (fp : FullProject) : String :=
  "\x7b\n"
    ++ pad (ind + 1) ++ "\"id\": " ++ renderStr fp.id ++ ",\n"
    ++ pad (ind + 1) ++ "\"name\": " ++ renderStr fp.name ++ ",\n"
    ++ pad (ind + 1) ++ "\"color\": " ++ renderStr fp.color ++ ",\n"
    ++ pad (ind + 1) ++ "\"createdAt\": " ++ renderStr fp.created_at ++ ",\n"
    ++ pad (ind + 1) ++ "\"updatedAt\": " ++ renderStr fp.updated_at ++ ",\n"
    ++ pad (ind + 1) ++ "\"lists\": " ++ renderArr (ind + 1) renderProjectListObj fp.lists ++ "\n"
    ++ pad ind ++ "\x7d"

/-- `serde_json::to_string_pretty(&projects)` for a `Vec<Project>`. -/
def to_string_pretty_projects (ps : List Project) : String :=
  renderArr 0 renderProjectObj ps

/-- `serde_json::to_string_pretty(&project)` for a `FullProject`. -/
def to_string_pretty_full_project (fp : FullProject) : String :=
  renderFullProjectObj 0 fp

/-! ### Command dispatcher (the `match args.command` in `main`)

Each arm is modelled as stdout bytes plus a success flag; `success = false`
is the `unwrap`/`panic!` path, which terminates the process with a non-zero
exit before anything is printed. -/

/-- stdout bytes and exit success of one CLI invocation. -/
structure RunResult where
  stdout : String
  success : Bool
deriving DecidableEq

/-- The dispatcher's parsing of the `done` CLI argument: `done == "true"`. -/
def doneArg (done : String) : Bool := done == "true"

/-- `SubCommand::GetAllProjects`: unwrap the fetch, pretty-print, `print!`
(no trailing newline). -/
def runGetAllProjects (w : World) : RunResult :=
  match (get_all_projects w).result with
  | none => ⟨"", false⟩
  | some projects => ⟨to_string_pretty_projects projects, true⟩

/-- `SubCommand::GetProject`: unwrap the composite fetch, pretty-print. -/
def runGetProject (w : World) (projectId : String) : RunResult :=
  match (get_full_project w projectId).result with
  | none => ⟨"", false⟩
  | some project => ⟨to_string_pretty_full_project project, true⟩

/-- `SubCommand::UpdateItem`: `done == "true"` is passed as the boolean;
a `false` return panics with no output. -/
def runUpdateItem (w : World) (itemId done : String) : RunResult :=
  match (update_item w itemId (doneArg done)).result with
  | some true => ⟨"", true⟩
  | _ => ⟨"", false⟩

/-- `SubCommand::NewList`: `println!` the returned body on success. -/
def runNewList (w : World) (projectId name : String) : RunResult :=
  match (new_list w projectId name).result with
  | none => ⟨"", false⟩
  | some res => ⟨res ++ "\n", true⟩

/-- `SubCommand::NewListItem`: `println!` the returned body on success. -/
def runNewListItem (w : World) (listId name : String) : RunResult :=
  match (new_list_item w listId name).result with
  | none => ⟨"", false⟩
  | some res => ⟨res ++ "\n", true⟩

/-- `SubCommand::DeleteList`: no output; panic on failure. -/
def runDeleteList (w : World) (listId : String) : RunResult :=
  match (delete_list w listId).result with
  | some true => ⟨"", true⟩
  | _ => ⟨"", false⟩

/-- `SubCommand::DeleteListItem`: no output; panic on failure. -/
def runDeleteListItem (w : World) (itemId : String) : RunResult :=
  match (delete_list_item w itemId).result with
  | some true => ⟨"", true⟩
  | _ => ⟨"", false⟩

/-! ### Concrete worlds used by witnesses and counterexamples -/

/-- A concrete project referencing two lists. -/
def pOk : Project := ⟨"p1", "N", "#fff", "t1", "t2", some [⟨"l1"⟩, ⟨"l2"⟩]⟩

/-- The first referenced list. -/
def l1Ok : ProjectList := ⟨"l1", "A", "p1", []⟩

/-- The second referenced list, with one item. -/
def l2Ok : ProjectList := ⟨"l2", "B", "p1", [⟨"i1", "x", false, "l2"⟩]⟩

/-- The full project assembled from `pOk`, `l1Ok`, `l2Ok`. -/
def fpOk : FullProject := ⟨"p1", "N", "#fff", "t1", "t2", [l1Ok, l2Ok]⟩

/-- A healthy environment serving `pOk` and both of its lists. -/
def wOk : World where
  http := fun req =>
    if req.url = baseUrl ++ "/api/project?id=p1" then some ⟨200, "P"⟩
    else if req.url = baseUrl ++ "/api/project/list?id=l1" then some ⟨200, "L1"⟩
    else if req.url = baseUrl ++ "/api/project/list?id=l2" then some ⟨200, "L2"⟩
    else none
  decodeProjects := fun _ => none
  decodeProject := fun s => if s = "P" then some pOk else none
  decodeList := fun s =>
    if s = "L1" then some l1Ok else if s = "L2" then some l2Ok else none

/-- An environment serving `pOk` and its first list, but with a transport
failure for the second list. -/
def wFail : World where
  http := fun req =>
    if req.url = baseUrl ++ "/api/project?id=p1" then some ⟨200, "P"⟩
    else if req.url = baseUrl ++ "/api/project/list?id=l1" then some ⟨200, "L1"⟩
    else none
  decodeProjects := fun _ => none
  decodeProject := fun s => if s = "P" then some pOk else none
  decodeList := fun s => if s = "L1" then some l1Ok else none

/-- An environment with every request failing at the transport layer. -/
def wDown : World where
  http := fun _ => none
  decodeProjects := fun _ => none
  decodeProject := fun _ => none
  decodeList := fun _ => none

/-- An environment answering every request with HTTP 200 and body `ok`. -/
def w200 : World where
  http := fun _ => some ⟨200, "ok"⟩
  decodeProjects := fun _ => none
  decodeProject := fun _ => none
  decodeList := fun _ => none

/-- An environment answering every request with HTTP 500 and a body that
decodes as an empty project array (as `serde_json` decodes `[]`). -/
def w500 : World where
  http := fun _ => some ⟨500, "[]"⟩
  decodeProjects := fun s => if s = "[]" then some [] else none
  decodeProject := fun _ => none
  decodeList := fun _ => none

/-- A project whose `lists` field is present but empty. -/
def pEmpty : Project := ⟨"p2", "M", "#000", "t3", "t4", some []⟩

/-- A project whose `lists` field is absent. -/
def pNoLists : Project := ⟨"p3", "K", "#111", "t5", "t6", none⟩

/-- An environment serving `pEmpty` under id `p2` and `pNoLists` under
id `p3`; `get-all-projects` yields the two of them. -/
def wMixed : World where
  http := fun req =>
    if req.url = baseUrl ++ "/api/project?id=p2" then some ⟨200, "P2"⟩
    else if req.url = baseUrl ++ "/api/project?id=p3" then some ⟨200, "P3"⟩
    else if req.url = baseUrl ++ "/api/project/all" then some ⟨200, "ALL"⟩
    else none
  decodeProjects := fun s => if s = "ALL" then some [pEmpty, pNoLists] else none
  decodeProject := fun s =>
    if s = "P2" then some pEmpty else if s = "P3" then some pNoLists else none
  decodeList := fun _ => none

/-- `wMixed` with a different project decoder: agrees with `wMixed` on the
transport and on the projects decoder, differs elsewhere. -/
def wDet1 : World := { wMixed with decodeProject := fun _ => none }

/-- `t` occurs contiguously inside `s`. -/
def ContainsSub (s t : String) : Prop := ∃ s1 s2, s = s1 ++ t ++ s2

/-! ### Helper lemmas about substring occurrence -/

theorem containsSub_appendL {s t : String} (u : String) (h : ContainsSub s t) :
    ContainsSub (u ++ s) t := by
  obtain ⟨s1, s2, rfl⟩ := h
  exact ⟨u ++ s1, s2, by simp [String.append_assoc]⟩

theorem containsSub_appendR {s t : String} (u : String) (h : ContainsSub s t) :
    ContainsSub (s ++ u) t := by
  obtain ⟨s1, s2, rfl⟩ := h
  exact ⟨s1, s2 ++ u, by simp [String.append_assoc]⟩

theorem containsSub_trans {s t r : String} (h1 : ContainsSub s t)
    (h2 : ContainsSub t r) : ContainsSub s r := by
  obtain ⟨s1, s2, rfl⟩ := h1
  obtain ⟨t1, t2, rfl⟩ := h2
  exact ⟨s1 ++ t1, t2 ++ s2, by simp [String.append_assoc]⟩

/-- The rendering of any element of a non-empty array run occurs inside
the rendered run. -/
theorem containsSub_renderItems {α : Type} (ind : Nat)
    (render : Nat → α → String) (x : α) (xs : List α) (p : α)
    (h : p = x ∨ p ∈ xs) :
    ContainsSub (renderItems ind render x xs) (render (ind + 1) p) := by
  induction xs generalizing x with
  | nil =>
    rcases h with rfl | h
    · exact ⟨pad (ind + 1), "", by simp [renderItems, String.append_empty]⟩
    · exact absurd h (List.not_mem_nil p)
  | cons y ys ih =>
    rcases h with rfl | h
    · exact ⟨pad (ind + 1), ",\n" ++ renderItems ind render y ys,
        by simp [renderItems, String.append_assoc]⟩
    · rcases List.mem_cons.mp h with rfl | h
      · exact containsSub_appendL _ (ih p (Or.inl rfl))
      · exact containsSub_appendL _ (ih y (Or.inr h))

/-- The rendering of any member of an array occurs inside the rendered
array. -/
theorem containsSub_renderArr {α : Type} (ind : Nat)
    (render : Nat → α → String) (ps : List α) (p : α) (h : p ∈ ps) :
    ContainsSub (renderArr ind render ps) (render (ind + 1) p) := by
  cases ps with
  | nil => exact absurd h (List.not_mem_nil p)
  | cons x xs =>
    have hx : p = x ∨ p ∈ xs := List.mem_cons.mp h
    simp only [renderArr]
    exact containsSub_appendR _ (containsSub_appendR _ (containsSub_appendR _
      (containsSub_appendL _ (containsSub_renderItems ind render x xs p hx))))

/-- A project with an absent `lists` field still renders the `lists` key,
paired with `null`. -/
theorem containsSub_renderProjectObj_null (ind : Nat) (p : Project)
    (h : p.lists = none) :
    ContainsSub (renderProjectObj ind p) "\"lists\": null" := by
  refine ⟨"\x7b\n" ++ pad (ind + 1) ++ "\"id\": " ++ renderStr p.id ++ ",\n"
      ++ pad (ind + 1) ++ "\"name\": " ++ renderStr p.name ++ ",\n"
      ++ pad (ind + 1) ++ "\"color\": " ++ renderStr p.color ++ ",\n"
      ++ pad (ind + 1) ++ "\"createdAt\": " ++ renderStr p.created_at ++ ",\n"
      ++ pad (ind + 1) ++ "\"updatedAt\": " ++ renderStr p.updated_at ++ ",\n"
      ++ pad (ind + 1),
    "\n" ++ pad ind ++ "\x7d", ?_⟩
  have hlit : ("\"lists\": null" : String) = "\"lists\": " ++ "null" := rfl
  rw [renderProjectObj, h, hlit]
  simp only [String.append_assoc]

/-! ### Helper lemmas about the composite fetch -/

/-- The request issued by `get_project_list` for a given list id. -/
def listGetRequest (lid : String) : Request :=
  ⟨Method.get, baseUrl ++ "/api/project/list?id=" ++ lid, none⟩



theorem get_project_list_trace (w : World) (lid : String) :
    (get_project_list w lid).trace = [listGetRequest lid] := by
  simp only [get_project_list, listGetRequest]
  cases w.http ⟨Method.get, baseUrl ++ "/api/project/list?id=" ++ lid, none⟩ <;> rfl

/-- A successful `fetchLists` run returns one list per id, in input order:
the `k`-th returned list is exactly what `get_project_list` yields for the
`k`-th id. -/
theorem fetchLists_result_spec (w : World) (ids : List Id) (ls : List ProjectList)
    (h : (fetchLists w ids).result = some ls) :
    ls.length = ids.length ∧
      ∀ k (hk : k < ids.length) (hk2 : k < ls.length),
        (get_project_list w (ids[k].id)).result = some (ls[k]) := by
  induction ids generalizing ls with
  | nil =>
    simp only [fetchLists] at h
    obtain rfl : ([] : List ProjectList) = ls := Option.some.inj h
    exact ⟨rfl, fun k hk _ => absurd hk (Nat.not_lt_zero k)⟩
  | cons i rest ih =>
    rcases e1 : get_project_list w i.id with ⟨t, r⟩
    simp only [fetchLists, e1] at h
    rcases r with _ | l
    · cases h
    · rcases e2 : fetchLists w rest with ⟨t2, r2⟩
      simp only [e2] at h
      rcases r2 with _ | ls'
      · cases h
      · obtain rfl : l :: ls' = ls := Option.some.inj h
        have ih' := ih ls' (by rw [e2])
        refine ⟨by simp [ih'.1], ?_⟩
        intro k hk hk2
        cases k with
        | zero =>
          simp only [List.getElem_cons_zero]
          rw [e1]
        | succ k =>
          simp only [List.getElem_cons_succ]
          exact ih'.2 k (by simpa using hk) (by simpa using hk2)

/-- If any referenced list fails to fetch, the whole loop fails. -/
theorem fetchLists_fails_of_mem_fail (w : World) (ids : List Id)
    (h : ∃ k, ∃ hk : k < ids.length,
      (get_project_list w (ids[k].id)).result = none) :
    (fetchLists w ids).result = none := by
  induction ids with
  | nil => obtain ⟨k, hk, _⟩ := h; exact absurd hk (Nat.not_lt_zero k)
  | cons i rest ih =>
    rcases e1 : get_project_list w i.id with ⟨t, r⟩
    rcases r with _ | l
    · simp only [fetchLists, e1]
    · rcases e2 : fetchLists w rest with ⟨t2, r2⟩
      obtain ⟨k, hk, hfail⟩ := h
      cases k with
      | zero =>
        simp only [List.getElem_cons_zero] at hfail
        rw [e1] at hfail
        cases hfail
      | succ k =>
        simp only [List.getElem_cons_succ] at hfail
        have : (fetchLists w rest).result = none :=
          ih ⟨k, by simpa using hk, hfail⟩
        rw [e2] at this
        simp only at this
        subst this
        simp only [fetchLists, e1, e2]

/-- If the fetches of the first `k` ids succeed and the fetch of the `k`-th
fails, the loop issues exactly the requests for ids `0..k` (inclusive) and
returns `none`: it stops at the first failing subrequest. -/
theorem fetchLists_trace_first_fail (w : World) (ids : List Id) (k : Nat)
    (hk : k < ids.length)
    (hpre : ∀ j (hj : j < ids.length), j < k →
      ((get_project_list w (ids[j].id)).result).isSome = true)
    (hfail : (get_project_list w (ids[k].id)).result = none) :
    (fetchLists w ids).trace
        = (ids.take (k + 1)).map (fun i => listGetRequest i.id) ∧
      (fetchLists w ids).result = none := by
  induction ids generalizing k with
  | nil => exact absurd hk (Nat.not_lt_zero k)
  | cons i rest ih =>
    rcases e1 : get_project_list w i.id with ⟨t, r⟩
    have htr := get_project_list_trace w i.id
    rw [e1] at htr; dsimp only at htr
    cases k with
    | zero =>
      simp only [List.getElem_cons_zero] at hfail
      rw [e1] at hfail; dsimp only at hfail
      subst hfail
      simp only [fetchLists, e1, List.take_succ_cons, List.take_zero,
        List.map_cons, List.map_nil, htr]
      exact ⟨trivial, trivial⟩
    | succ k =>
      have h0 := hpre 0 (Nat.zero_lt_succ _) (Nat.zero_lt_succ _)
      simp only [List.getElem_cons_zero] at h0
      rw [e1] at h0; dsimp only at h0
      rcases r with _ | l
      · exact absurd h0 (by simp)
      · have hk' : k < rest.length := by simpa using hk
        have hpre' : ∀ j (hj : j < rest.length), j < k →
            ((get_project_list w (rest[j].id)).result).isSome = true := by
          intro j hj hjk
          have := hpre (j + 1) (by simpa using hj) (by omega)
          simpa using this
        have hfail' : (get_project_list w (rest[k].id)).result = none := by
          simpa using hfail
        obtain ⟨ihtr, ihres⟩ := ih k hk' hpre' hfail'
        rcases e2 : fetchLists w rest with ⟨t2, r2⟩
        rw [e2] at ihtr ihres; dsimp only at ihtr ihres
        subst ihres
        simp only [fetchLists, e1, e2, List.take_succ_cons, List.map_cons, htr, ihtr,
          List.singleton_append]
        exact ⟨trivial, trivial⟩

/-- `isSuccess` is the arithmetic 2xx condition. -/
theorem isSuccess_iff (s : Nat) : isSuccess s = true ↔ 200 ≤ s ∧ s < 300 := by
  simp [isSuccess]

/-- Replace the boolean 2xx test in an `if` by its arithmetic form. -/
theorem if_isSuccess {α : Type} (s : Nat) (x y : α) :
    (if isSuccess s then x else y) = if 200 ≤ s ∧ s < 300 then x else y := by
  by_cases h : 200 ≤ s ∧ s < 300
  · rw [if_pos ((isSuccess_iff s).mpr h), if_pos h]
  · rw [if_neg (fun hh => h ((isSuccess_iff s).mp hh)), if_neg h]

/-! ### Claim theorems -/

/-- Claim C1: whenever `get_full_project` succeeds, the resulting
`FullProject` carries the fetched `Project`'s `id`, `name`, `color`,
`created_at` and `updated_at` verbatim, the project's `lists` field was
present, and the result holds exactly one fetched list per referenced id,
in the order of the id sequence. -/
theorem get_full_project_preserves_fields_and_order (w : World) (pid : String)
    (fp : FullProject) (h : (get_full_project w pid).result = some fp) :
    ∃ p ids, (get_project w pid).result = some p ∧ p.lists = some ids ∧
      fp.id = p.id ∧ fp.name = p.name ∧ fp.color = p.color ∧
      fp.created_at = p.created_at ∧ fp.updated_at = p.updated_at ∧
      fp.lists.length = ids.length ∧
      ∀ k (hk : k < ids.length) (hk2 : k < fp.lists.length),
        (get_project_list w (ids[k].id)).result = some (fp.lists[k]) := by
  rcases e1 : get_project w pid with ⟨t, r⟩
  rcases r with _ | p
  · simp only [get_full_project, e1] at h
    exact Option.noConfusion h
  · simp only [get_full_project, e1] at h
    rcases e0 : p.lists with _ | ids
    · rw [e0] at h
      exact Option.noConfusion h
    · rw [e0] at h
      dsimp only at h
      rcases e2 : fetchLists w ids with ⟨t2, r2⟩
      rw [e2] at h
      rcases r2 with _ | ls
      · exact Option.noConfusion h
      · dsimp only at h
        obtain rfl : _ = fp := Option.some.inj h
        have spec := fetchLists_result_spec w ids ls (by rw [e2])
        exact ⟨p, ids, rfl, e0, rfl, rfl, rfl, rfl, rfl, spec.1, spec.2⟩

/-- Witness for C1: instantiated at the healthy world `wOk`. -/
theorem get_full_project_preserves_fields_and_order_witness :
    ∃ p ids, (get_project wOk ("p1")).result = some p ∧ p.lists = some ids ∧
      fpOk.id = p.id ∧ fpOk.name = p.name ∧ fpOk.color = p.color ∧
      fpOk.created_at = p.created_at ∧ fpOk.updated_at = p.updated_at ∧
      fpOk.lists.length = ids.length ∧
      ∀ k (hk : k < ids.length) (hk2 : k < fpOk.lists.length),
        (get_project_list wOk (ids[k].id)).result = some (fpOk.lists[k]) :=
  get_full_project_preserves_fields_and_order wOk ("p1") fpOk (by rfl)

/-- Claim C2: the composite fails (and the `get-project` command aborts
with empty stdout) when the project fetch fails, the `lists` field is
absent, or any list fetch fails; moreover it stops at the first failing
subrequest: when the fetches before index `k` succeed and the `k`-th
fails, exactly the project request plus the first `k + 1` list requests
are issued. -/
theorem get_project_failure_no_partial_output :
    (∀ w pid,
        ((get_project w pid).result = none ∨
          (∃ p, (get_project w pid).result = some p ∧ p.lists = none) ∨
          (∃ p ids, (get_project w pid).result = some p ∧ p.lists = some ids ∧
            ∃ k, ∃ hk : k < ids.length,
              (get_project_list w (ids[k].id)).result = none)) →
        (get_full_project w pid).result = none ∧
          runGetProject w pid = ⟨"", false⟩)
    ∧ (∀ w pid p ids k (hk : k < ids.length),
        (get_project w pid).result = some p → p.lists = some ids →
        (∀ j (hj : j < ids.length), j < k →
          ((get_project_list w (ids[j].id)).result).isSome = true) →
        (get_project_list w (ids[k].id)).result = none →
        (get_full_project w pid).trace
          = (get_project w pid).trace
            ++ (ids.take (k + 1)).map (fun i => listGetRequest i.id)) := by
  constructor
  · intro w pid h
    have hres : (get_full_project w pid).result = none := by
      rcases e1 : get_project w pid with ⟨t, r⟩
      rcases h with h1 | ⟨p, h1, h2⟩ | ⟨p, ids, h1, h2, k, hk, h3⟩
      · rw [e1] at h1; dsimp only at h1; subst h1
        simp only [get_full_project, e1]
      · rw [e1] at h1; dsimp only at h1; subst h1
        simp only [get_full_project, e1, h2]
      · rw [e1] at h1; dsimp only at h1; subst h1
        have hfl := fetchLists_fails_of_mem_fail w ids ⟨k, hk, h3⟩
        rcases e2 : fetchLists w ids with ⟨t2, r2⟩
        rw [e2] at hfl; dsimp only at hfl; subst hfl
        simp only [get_full_project, e1, h2, e2]
    refine ⟨hres, ?_⟩
    simp only [runGetProject, hres]
  · intro w pid p ids k hk h1 h2 hpre hfail
    rcases e1 : get_project w pid with ⟨t, r⟩
    rw [e1] at h1; dsimp only at h1; subst h1
    obtain ⟨htr, hres⟩ := fetchLists_trace_first_fail w ids k hk hpre hfail
    rcases e2 : fetchLists w ids with ⟨t2, r2⟩
    rw [e2] at htr hres; dsimp only at htr hres
    subst hres
    simp only [get_full_project, e1, h2, e2, htr]

/-- Witness for C2: in `wFail` the first list fetch succeeds and the second
fails, so the composite fails, stdout stays empty, and exactly the project
request plus two list requests are issued. -/
theorem get_project_failure_no_partial_output_witness :
    ((get_full_project wFail ("p1")).result = none ∧
        runGetProject wFail ("p1") = ⟨"", false⟩) ∧
      (get_full_project wFail ("p1")).trace
        = (get_project wFail ("p1")).trace
          ++ (([⟨"l1"⟩, ⟨"l2"⟩] : List Id).take (1 + 1)).map
              (fun i => listGetRequest i.id) :=
  ⟨get_project_failure_no_partial_output.1 wFail ("p1")
      (Or.inr (Or.inr ⟨pOk, [⟨"l1"⟩, ⟨"l2"⟩], by rfl, by rfl, 1, by decide, by rfl⟩)),
    get_project_failure_no_partial_output.2 wFail ("p1") pOk [⟨"l1"⟩, ⟨"l2"⟩] 1
      (by decide) (by rfl) (by rfl)
      (by intro j hj hjk
          interval_cases j
          rfl)
      (by rfl)⟩

/-- Claim C3 counterexample: the read operations do not inspect the HTTP
status.  In `w500` every response has status 500 — not a success — yet
`get_all_projects` returns a value, because the body decodes. -/
theorem read_ignores_status_counterexample :
    isSuccess 500 = false ∧ (get_all_projects w500).result = some [] := by
  exact ⟨rfl, rfl⟩

/-- Claim C3 (amended): every operation collapses its failure modes into a
single undifferentiated negative outcome — absent for reads and creations,
`false` for update/delete — with no partial result.  For the three GET
reads the collapsed causes are transport errors and decoding errors (the
status is never inspected); for the creation, update and delete operations
the collapsed causes are transport errors and non-2xx statuses. -/
theorem api_client_failure_collapse :
    (∀ w, w.http ⟨Method.get, baseUrl ++ "/api/project/all", none⟩ = none →
        (get_all_projects w).result = none)
    ∧ (∀ w r, w.http ⟨Method.get, baseUrl ++ "/api/project/all", none⟩ = some r →
        w.decodeProjects r.body = none → (get_all_projects w).result = none)
    ∧ (∀ w pid, w.http ⟨Method.get, baseUrl ++ "/api/project?id=" ++ pid, none⟩ = none →
        (get_project w pid).result = none)
    ∧ (∀ w pid r, w.http ⟨Method.get, baseUrl ++ "/api/project?id=" ++ pid, none⟩ = some r →
        w.decodeProject r.body = none → (get_project w pid).result = none)
    ∧ (∀ w lid, w.http (listGetRequest lid) = none →
        (get_project_list w lid).result = none)
    ∧ (∀ w lid r, w.http (listGetRequest lid) = some r →
        w.decodeList r.body = none → (get_project_list w lid).result = none)
    ∧ (∀ w i b, w.http ⟨Method.patch, baseUrl ++ "/api/project/list/item",
          some (Json.obj [("id", Json.str i),
                          ("data", Json.obj [("done", Json.bool b)])])⟩ = none →
        (update_item w i b).result = some false)
    ∧ (∀ w i b r, w.http ⟨Method.patch, baseUrl ++ "/api/project/list/item",
          some (Json.obj [("id", Json.str i),
                          ("data", Json.obj [("done", Json.bool b)])])⟩ = some r →
        isSuccess r.status = false → (update_item w i b).result = some false)
    ∧ (∀ w p n, w.http ⟨Method.post, baseUrl ++ "/api/project/list",
          some (Json.obj [("name", Json.str n), ("projectId", Json.str p)])⟩ = none →
        (new_list w p n).result = none)
    ∧ (∀ w p n r, w.http ⟨Method.post, baseUrl ++ "/api/project/list",
          some (Json.obj [("name", Json.str n), ("projectId", Json.str p)])⟩ = some r →
        isSuccess r.status = false → (new_list w p n).result = none)
    ∧ (∀ w l n, w.http ⟨Method.post, baseUrl ++ "/api/project/list/item",
          some (Json.obj [("name", Json.str n), ("listId", Json.str l)])⟩ = none →
        (new_list_item w l n).result = none)
    ∧ (∀ w l n r, w.http ⟨Method.post, baseUrl ++ "/api/project/list/item",
          some (Json.obj [("name", Json.str n), ("listId", Json.str l)])⟩ = some r →
        isSuccess r.status = false → (new_list_item w l n).result = none)
    ∧ (∀ w l, w.http ⟨Method.delete, baseUrl ++ "/api/project/list?id=" ++ l, none⟩ = none →
        (delete_list w l).result = some false)
    ∧ (∀ w l r, w.http ⟨Method.delete, baseUrl ++ "/api/project/list?id=" ++ l, none⟩ = some r →
        isSuccess r.status = false → (delete_list w l).result = some false)
    ∧ (∀ w i, w.http ⟨Method.delete, baseUrl ++ "/api/project/list/item?id=" ++ i, none⟩ = none →
        (delete_list_item w i).result = some false)
    ∧ (∀ w i r, w.http ⟨Method.delete, baseUrl ++ "/api/project/list/item?id=" ++ i, none⟩ = some r →
        isSuccess r.status = false → (delete_list_item w i).result = some false) := by
  refine ⟨?_, ?_, ?_, ?_, ?_, ?_, ?_, ?_, ?_, ?_, ?_, ?_, ?_, ?_, ?_, ?_⟩
  · intro w h; simp [get_all_projects, h]
  · intro w r h hd; simp [get_all_projects, h, hd]
  · intro w pid h; simp [get_project, h]
  · intro w pid r h hd; simp [get_project, h, hd]
  · intro w lid h; simp [get_project_list, listGetRequest] at h ⊢; simp [h]
  · intro w lid r h hd; simp [get_project_list, listGetRequest] at h ⊢; simp [h, hd]
  · intro w i b h; simp [update_item, h]
  · intro w i b r h hs; simp [update_item, h, hs]
  · intro w p n h; simp [new_list, h]
  · intro w p n r h hs; simp [new_list, h, hs]
  · intro w l n h; simp [new_list_item, h]
  · intro w l n r h hs; simp [new_list_item, h, hs]
  · intro w l h; simp [delete_list, h]
  · intro w l r h hs; simp [delete_list, h, hs]
  · intro w i h; simp [delete_list_item, h]
  · intro w i r h hs; simp [delete_list_item, h, hs]

/-- Witness for the amended C3: concrete negative outcomes in the
all-transport-down world and in the all-500 world. -/
theorem api_client_failure_collapse_witness :
    (get_all_projects wDown).result = none ∧
      (update_item wDown ("i1") true).result = some false ∧
      (new_list w500 ("p1") ("G")).result = none ∧
      (delete_list w500 ("l1")).result = some false :=
  ⟨api_client_failure_collapse.1 wDown (by rfl),
   api_client_failure_collapse.2.2.2.2.2.2.1 wDown ("i1") true (by rfl),
   api_client_failure_collapse.2.2.2.2.2.2.2.2.2.1 w500 ("p1") ("G") ⟨500, "[]"⟩
     (by rfl) (by rfl),
   api_client_failure_collapse.2.2.2.2.2.2.2.2.2.2.2.2.2.1 w500 ("l1") ⟨500, "[]"⟩
     (by rfl) (by rfl)⟩

/-- Claim C4: the `update-item` dispatcher parses the `done` argument by
strict string equality with the lowercase literal `true`: the boolean
passed to `update_item` (and hence carried in the PATCH body) is `true`
exactly when the argument is `true`; `TRUE` and `1` yield `false`. -/
theorem update_item_done_argument_parsing :
    (∀ d : String, doneArg d = true ↔ d = "true")
    ∧ doneArg ("TRUE") = false ∧ doneArg ("1") = false ∧ doneArg ("true") = true
    ∧ ∀ w itemId d, (update_item w itemId (doneArg d)).trace
        = [⟨Method.patch, baseUrl ++ "/api/project/list/item",
            some (Json.obj [("id", Json.str itemId),
                            ("data", Json.obj [("done", Json.bool (doneArg d))])])⟩] := by
  refine ⟨?_, by rfl, by rfl, by rfl, ?_⟩
  · intro d; simp [doneArg]
  · intro w itemId d
    simp only [update_item]
    cases w.http ⟨Method.patch, baseUrl ++ "/api/project/list/item",
      some (Json.obj [("id", Json.str itemId),
                      ("data", Json.obj [("done", Json.bool (doneArg d))])])⟩ <;> rfl

/-- Witness for C4: the argument `maybe` parses to `false` and that boolean
is what the PATCH body carries. -/
theorem update_item_done_argument_parsing_witness :
    (update_item wDown ("i1") (doneArg ("maybe"))).trace
      = [⟨Method.patch, baseUrl ++ "/api/project/list/item",
          some (Json.obj [("id", Json.str ("i1")),
                          ("data", Json.obj [("done", Json.bool (doneArg ("maybe")))])])⟩] :=
  update_item_done_argument_parsing.2.2.2.2 wDown ("i1") ("maybe")

/-- Claim C5: `update_item` issues exactly one PATCH to
`/api/project/list/item` whose JSON body is the documented object with
`done` as a JSON boolean, and its result is `true` exactly when the
response status is 2xx; a transport error yields `false`. -/
theorem update_item_request_shape_and_result (w : World) (itemId : String) (done : Bool) :
    (update_item w itemId done).trace
      = [⟨Method.patch, baseUrl ++ "/api/project/list/item",
          some (Json.obj [("id", Json.str itemId),
                          ("data", Json.obj [("done", Json.bool done)])])⟩]
    ∧ (∀ s b, w.http ⟨Method.patch, baseUrl ++ "/api/project/list/item",
          some (Json.obj [("id", Json.str itemId),
                          ("data", Json.obj [("done", Json.bool done)])])⟩ = some ⟨s, b⟩ →
        ((update_item w itemId done).result = some true ↔ (200 ≤ s ∧ s < 300)))
    ∧ (w.http ⟨Method.patch, baseUrl ++ "/api/project/list/item",
          some (Json.obj [("id", Json.str itemId),
                          ("data", Json.obj [("done", Json.bool done)])])⟩ = none →
        (update_item w itemId done).result = some false) := by
  refine ⟨?_, ?_, ?_⟩
  · simp only [update_item]
    cases w.http ⟨Method.patch, baseUrl ++ "/api/project/list/item",
      some (Json.obj [("id", Json.str itemId),
                      ("data", Json.obj [("done", Json.bool done)])])⟩ <;> rfl
  · intro s b h
    simp only [update_item, h]
    rw [← isSuccess_iff s]
    simp
  · intro h
    simp [update_item, h]

/-- Witness for C5: against an all-200 environment, `update_item` returns
`true` and its trace is the single documented PATCH request. -/
theorem update_item_request_shape_and_result_witness :
    (update_item w200 ("i1") true).result = some true ∧
      (update_item w200 ("i1") true).trace
        = [⟨Method.patch, baseUrl ++ "/api/project/list/item",
            some (Json.obj [("id", Json.str ("i1")),
                            ("data", Json.obj [("done", Json.bool true)])])⟩] :=
  ⟨((update_item_request_shape_and_result w200 ("i1") true).2.1 200 ("ok")
      (by rfl)).mpr (by omega),
   (update_item_request_shape_and_result w200 ("i1") true).1⟩

/-- Claim C6: `new_list` posts `name`/`projectId` to `/api/project/list`
and `new_list_item` posts `name`/`listId` to `/api/project/list/item`;
each issues exactly that one request and returns the raw response body on
a 2xx status, an absent value on any other status or a transport error. -/
theorem creation_request_shape_and_result (w : World) (projectId listId name : String) :
    (new_list w projectId name).trace
      = [⟨Method.post, baseUrl ++ "/api/project/list",
          some (Json.obj [("name", Json.str name), ("projectId", Json.str projectId)])⟩]
    ∧ (∀ s b, w.http ⟨Method.post, baseUrl ++ "/api/project/list",
          some (Json.obj [("name", Json.str name), ("projectId", Json.str projectId)])⟩
            = some ⟨s, b⟩ →
        (new_list w projectId name).result
          = if 200 ≤ s ∧ s < 300 then some b else none)
    ∧ (w.http ⟨Method.post, baseUrl ++ "/api/project/list",
          some (Json.obj [("name", Json.str name), ("projectId", Json.str projectId)])⟩
            = none →
        (new_list w projectId name).result = none)
    ∧ (new_list_item w listId name).trace
      = [⟨Method.post, baseUrl ++ "/api/project/list/item",
          some (Json.obj [("name", Json.str name), ("listId", Json.str listId)])⟩]
    ∧ (∀ s b, w.http ⟨Method.post, baseUrl ++ "/api/project/list/item",
          some (Json.obj [("name", Json.str name), ("listId", Json.str listId)])⟩
            = some ⟨s, b⟩ →
        (new_list_item w listId name).result
          = if 200 ≤ s ∧ s < 300 then some b else none)
    ∧ (w.http ⟨Method.post, baseUrl ++ "/api/project/list/item",
          some (Json.obj [("name", Json.str name), ("listId", Json.str listId)])⟩
            = none →
        (new_list_item w listId name).result = none) := by
  refine ⟨?_, ?_, ?_, ?_, ?_, ?_⟩
  · simp only [new_list]
    cases w.http ⟨Method.post, baseUrl ++ "/api/project/list",
      some (Json.obj [("name", Json.str name), ("projectId", Json.str projectId)])⟩ <;> rfl
  · intro s b h
    simp only [new_list, h]
    exact if_isSuccess s (some b) none
  · intro h; simp [new_list, h]
  · simp only [new_list_item]
    cases w.http ⟨Method.post, baseUrl ++ "/api/project/list/item",
      some (Json.obj [("name", Json.str name), ("listId", Json.str listId)])⟩ <;> rfl
  · intro s b h
    simp only [new_list_item, h]
    exact if_isSuccess s (some b) none
  · intro h; simp [new_list_item, h]

/-- Witness for C6: against the all-200 environment both creation
operations return the raw body `ok`. -/
theorem creation_request_shape_and_result_witness :
    (new_list w200 ("p1") ("G")).result = some ("ok") ∧
      (new_list_item w200 ("l1") ("G")).result = some ("ok") := by
  constructor
  · rw [(creation_request_shape_and_result w200 ("p1") ("l1") ("G")).2.1 200 ("ok") (by rfl)]
    rw [if_pos (by omega)]
  · rw [(creation_request_shape_and_result w200 ("p1") ("l1") ("G")).2.2.2.2.1 200 ("ok")
      (by rfl)]
    rw [if_pos (by omega)]

/-- Claim C7: `get-all-projects` is a deterministic function of the HTTP
responses and of the projects decoder: two environments that agree on
those (whatever else differs) produce byte-identical stdout and the same
exit status. -/
theorem get_all_projects_deterministic (w1 w2 : World)
    (hh : w1.http = w2.http) (hd : w1.decodeProjects = w2.decodeProjects) :
    runGetAllProjects w1 = runGetAllProjects w2 := by
  simp only [runGetAllProjects, get_all_projects, hh, hd]

/-- Witness for C7: `wDet1` differs from `wMixed` only in the project
decoder, so the command output coincides. -/
theorem get_all_projects_deterministic_witness :
    runGetAllProjects wDet1 = runGetAllProjects wMixed :=
  get_all_projects_deterministic wDet1 wMixed (by rfl) (by rfl)

/-- Claim C9: a present-but-empty `lists` field is a success: the composite
returns the project's scalar fields with an empty `lists` sequence and
issues no list fetches (its trace is exactly the project request trace);
an absent `lists` field, by contrast, fails the composite. -/
theorem get_full_project_empty_lists :
    (∀ w pid p, (get_project w pid).result = some p → p.lists = some [] →
        get_full_project w pid
          = ⟨(get_project w pid).trace,
             some ⟨p.id, p.name, p.color, p.created_at, p.updated_at, []⟩⟩)
    ∧ (∀ w pid p, (get_project w pid).result = some p → p.lists = none →
        (get_full_project w pid).result = none) := by
  constructor
  · intro w pid p h1 h2
    rcases e1 : get_project w pid with ⟨t, r⟩
    rw [e1] at h1; dsimp only at h1; subst h1
    simp only [get_full_project, e1, h2, fetchLists, List.append_nil]
  · intro w pid p h1 h2
    rcases e1 : get_project w pid with ⟨t, r⟩
    rw [e1] at h1; dsimp only at h1; subst h1
    simp only [get_full_project, e1, h2]

/-- Witness for C9: `wMixed` serves `pEmpty` (empty `lists`) under `p2`
and `pNoLists` (absent `lists`) under `p3`. -/
theorem get_full_project_empty_lists_witness :
    (get_full_project wMixed ("p2")
        = ⟨(get_project wMixed ("p2")).trace,
           some ⟨pEmpty.id, pEmpty.name, pEmpty.color, pEmpty.created_at,
                 pEmpty.updated_at, []⟩⟩) ∧
      (get_full_project wMixed ("p3")).result = none :=
  ⟨get_full_project_empty_lists.1 wMixed ("p2") pEmpty (by rfl) (by rfl),
   get_full_project_empty_lists.2 wMixed ("p3") pNoLists (by rfl) (by rfl)⟩

/-- Claim C10: serialization of the model values is a total function in
the model, so whenever the fetch succeeds the dispatcher takes the
printing branch: the two read commands never abort after a successful
fetch, and stdout is exactly the pretty-printed value. -/
theorem read_commands_never_abort_after_successful_fetch :
    (∀ w ps, (get_all_projects w).result = some ps →
        runGetAllProjects w = ⟨to_string_pretty_projects ps, true⟩)
    ∧ (∀ w pid fp, (get_full_project w pid).result = some fp →
        runGetProject w pid = ⟨to_string_pretty_full_project fp, true⟩) := by
  constructor
  · intro w ps h; simp only [runGetAllProjects, h]
  · intro w pid fp h; simp only [runGetProject, h]

/-- Witness for C10: the two read commands at healthy worlds. -/
theorem read_commands_never_abort_witness :
    runGetAllProjects wMixed = ⟨to_string_pretty_projects [pEmpty, pNoLists], true⟩ ∧
      runGetProject wOk ("p1") = ⟨to_string_pretty_full_project fpOk, true⟩ :=
  ⟨read_commands_never_abort_after_successful_fetch.1 wMixed [pEmpty, pNoLists] (by rfl),
   read_commands_never_abort_after_successful_fetch.2 wOk ("p1") fpOk (by rfl)⟩

/-- Claim C8: when a fetched project's optional `lists` field is absent,
`get-all-projects` still emits the field: the substring `"lists": null`
occurs in its stdout JSON (the key is not omitted). -/
theorem get_all_projects_emits_null_for_absent_lists (w : World)
    (ps : List Project) (p : Project)
    (hres : (get_all_projects w).result = some ps) (hmem : p ∈ ps)
    (hnull : p.lists = none) :
    ContainsSub (runGetAllProjects w).stdout "\"lists\": null" := by
  have hrun : runGetAllProjects w = ⟨to_string_pretty_projects ps, true⟩ := by
    simp only [runGetAllProjects, hres]
  rw [hrun]
  exact containsSub_trans
    (containsSub_renderArr 0 renderProjectObj ps p hmem)
    (containsSub_renderProjectObj_null 1 p hnull)

/-- Witness for C8: `wMixed` returns `pNoLists` (absent `lists`) among its
projects, and the command's stdout contains the null field. -/
theorem get_all_projects_emits_null_for_absent_lists_witness :
    ContainsSub (runGetAllProjects wMixed).stdout "\"lists\": null" :=
  get_all_projects_emits_null_for_absent_lists wMixed [pEmpty, pNoLists] pNoLists
    (by rfl) (List.Mem.tail _ (List.Mem.head _)) (by rfl)

end Onix
